import Mathlib

/-!
Verification of the DeployX repository: the on-chain `ContractRegistry`
Solidity contract and the Telegram deployment bot (`index.js`).

The registry contract is embedded as a pure state-transition function:
addresses and `bytes32` values are modelled as `Nat` (with `0` playing the
role of the zero address / zero hash), `block.timestamp` and `msg.sender`
are explicit parameters, and a reverting call is an `Except.error` carrying
the revert string from the source.
-/

/-- The `DeployedContract` struct of `ContractRegistry`. -/
structure DeployedContract where
  name : String
  contractAddress : Nat
  network : String
  timestamp : Nat
  txHash : Nat
  deployer : Nat
deriving DecidableEq

/-- The `ContractRegistered` event of `ContractRegistry`. -/
structure ContractRegisteredEvent where
  deployer : Nat
  contractAddress : Nat
  name : String
  network : String
  txHash : Nat
  timestamp : Nat
deriving DecidableEq

/-- The `ContractUpdated` event of `ContractRegistry`. -/
structure ContractUpdatedEvent where
  deployer : Nat
  contractAddress : Nat
  newName : String
deriving DecidableEq

/-- The storage of `ContractRegistry`: the two mappings
`userContracts` and `contractToOwner`.  A Solidity mapping returns the
zero value (here `0`, resp. `[]`) for unset keys, so total functions model
it exactly. -/
structure RegistryState where
  userContracts : Nat → List DeployedContract
  contractToOwner : Nat → Nat

/-- The state of a freshly deployed registry: both mappings empty. -/
def RegistryState.init : RegistryState :=
  { userContracts := fun _ => [], contractToOwner := fun _ => 0 }

/-- `registerContract` from the Solidity source: the five `require`s in
source order, then push onto the caller's list, set the owner index and
emit `ContractRegistered`. -/
def registerContract (s : RegistryState) (sender : Nat) (name : String)
    (contractAddress : Nat) (network : String) (txHash : Nat)
    (blockTimestamp : Nat) :
    Except String (RegistryState × ContractRegisteredEvent) :=
  if name = "" then Except.error "Name cannot be empty"
  else if contractAddress = 0 then Except.error "Invalid contract address"
  else if network = "" then Except.error "Network cannot be empty"
  else if txHash = 0 then Except.error "Invalid transaction hash"
  else if s.contractToOwner contractAddress ≠ 0 then
    Except.error "Contract already registered"
  else
    Except.ok
      ({ userContracts := fun u =>
           if u = sender then
             s.userContracts u ++
               [⟨name, contractAddress, network, blockTimestamp, txHash, sender⟩]
           else s.userContracts u,
         contractToOwner := fun a =>
           if a = contractAddress then sender else s.contractToOwner a },
       ⟨sender, contractAddress, name, network, txHash, blockTimestamp⟩)

/-- Transaction-level view of `registerContract`: a reverted call leaves
the storage unchanged. -/
def registerContractTx (s : RegistryState) (sender : Nat) (name : String)
    (contractAddress : Nat) (network : String) (txHash : Nat)
    (blockTimestamp : Nat) : RegistryState :=
  match registerContract s sender name contractAddress network txHash blockTimestamp with
  | Except.ok (s', _) => s'
  | Except.error _ => s

/-- The linear scan of `updateContractName`: rewrite the name of the first
record whose `contractAddress` matches, returning the new list and whether
a match was found (i.e. whether `ContractUpdated` is emitted). -/
def renameFirst (addr : Nat) (newName : String) :
    List DeployedContract → List DeployedContract × Bool
  | [] => ([], false)
  | c :: cs =>
    if c.contractAddress = addr then
      ({ c with name := newName } :: cs, true)
    else
      (c :: (renameFirst addr newName cs).1, (renameFirst addr newName cs).2)

/-- `updateContractName` from the Solidity source: the `contractExists`
modifier, then `onlyContractOwner`, then the non-empty-name `require`,
then the linear scan over the caller's own list.  When the scan finds no
match the call completes silently with no mutation and no event. -/
def updateContractName (s : RegistryState) (sender : Nat)
    (contractAddress : Nat) (newName : String) :
    Except String (RegistryState × List ContractUpdatedEvent) :=
  if s.contractToOwner contractAddress = 0 then
    Except.error "Contract not registered"
  else if s.contractToOwner contractAddress ≠ sender then
    Except.error "Not the contract owner"
  else if newName = "" then Except.error "Name cannot be empty"
  else
    let r := renameFirst contractAddress newName (s.userContracts sender)
    Except.ok
      ({ s with userContracts := fun u =>
           if u = sender then r.1 else s.userContracts u },
       if r.2 then [⟨sender, contractAddress, newName⟩] else [])

/-- The scan of `getContract`: first record in the list whose
`contractAddress` matches. -/
def findContract (addr : Nat) : List DeployedContract → Option DeployedContract
  | [] => none
  | c :: cs => if c.contractAddress = addr then some c else findContract addr cs

/-- `getContract` from the Solidity source: the `contractExists` modifier,
then a scan of the owner's list, reverting `Contract not found` when the
scan fails. -/
def getContract (s : RegistryState) (contractAddress : Nat) :
    Except String DeployedContract :=
  if s.contractToOwner contractAddress = 0 then
    Except.error "Contract not registered"
  else
    match findContract contractAddress (s.userContracts (s.contractToOwner contractAddress)) with
    | some c => Except.ok c
    | none => Except.error "Contract not found"

/-- `getUserContracts` from the Solidity source. -/
def getUserContracts (s : RegistryState) (user : Nat) : List DeployedContract :=
  s.userContracts user

/-- `getUserContractCount` from the Solidity source. -/
def getUserContractCount (s : RegistryState) (user : Nat) : Nat :=
  (s.userContracts user).length

/-- `isContractRegistered` from the Solidity source. -/
def isContractRegistered (s : RegistryState) (contractAddress : Nat) : Bool :=
  s.contractToOwner contractAddress ≠ 0

/-- Whether an `Except` value is the error case. -/
def exceptIsError {ε α : Type} : Except ε α → Bool
  | Except.error _ => true
  | Except.ok _ => false

/-- Registry states reachable from the fresh deployment by external calls.
The EVM guarantees `msg.sender` is never the zero address, hence the
`sender ≠ 0` side conditions. -/
inductive Reachable : RegistryState → Prop
  | init : Reachable RegistryState.init
  | register {s : RegistryState} {sender : Nat} {name : String}
      {addr : Nat} {network : String} {txHash blockTimestamp : Nat}
      {s' : RegistryState} {ev : ContractRegisteredEvent} :
      Reachable s → sender ≠ 0 →
      registerContract s sender name addr network txHash blockTimestamp =
        Except.ok (s', ev) →
      Reachable s'
  | update {s : RegistryState} {sender addr : Nat} {newName : String}
      {s' : RegistryState} {evs : List ContractUpdatedEvent} :
      Reachable s → sender ≠ 0 →
      updateContractName s sender addr newName = Except.ok (s', evs) →
      Reachable s'

/-- A demonstration state: the fresh registry after one successful
registration by user `1` of address `5`. -/
def demoState : RegistryState :=
  registerContractTx RegistryState.init 1 "A" 5 "testnet" 7 100

/-- Two records that agree on every field except possibly `name`. -/
def agreesExceptName (c d : DeployedContract) : Prop :=
  c.contractAddress = d.contractAddress ∧ c.network = d.network ∧
  c.timestamp = d.timestamp ∧ c.txHash = d.txHash ∧ c.deployer = d.deployer

theorem registerContract_ok {s : RegistryState} {sender : Nat} {name : String}
    {addr : Nat} {network : String} {txHash blockTimestamp : Nat}
    {s' : RegistryState} {ev : ContractRegisteredEvent}
    (h : registerContract s sender name addr network txHash blockTimestamp =
      Except.ok (s', ev)) :
    name ≠ "" ∧ addr ≠ 0 ∧ network ≠ "" ∧ txHash ≠ 0 ∧
    s.contractToOwner addr = 0 ∧
    s'.userContracts = (fun u =>
      if u = sender then
        s.userContracts u ++
          [⟨name, addr, network, blockTimestamp, txHash, sender⟩]
      else s.userContracts u) ∧
    s'.contractToOwner = (fun a =>
      if a = addr then sender else s.contractToOwner a) ∧
    ev = ⟨sender, addr, name, network, txHash, blockTimestamp⟩ := by
  rw [registerContract] at h
  split_ifs at h with h1 h2 h3 h4 h5
  obtain ⟨hs', hev⟩ := Prod.mk.inj (Except.ok.inj h)
  subst hs'
  subst hev
  exact ⟨h1, h2, h3, h4, not_ne_iff.mp h5, rfl, rfl, rfl⟩

theorem updateContractName_ok {s : RegistryState} {sender addr : Nat}
    {newName : String} {s' : RegistryState} {evs : List ContractUpdatedEvent}
    (h : updateContractName s sender addr newName = Except.ok (s', evs)) :
    s.contractToOwner addr = sender ∧ sender ≠ 0 ∧ newName ≠ "" ∧
    s'.userContracts = (fun u =>
      if u = sender then renameFirst addr newName (s.userContracts sender)
        |>.1 else s.userContracts u) ∧
    s'.contractToOwner = s.contractToOwner := by
  rw [updateContractName] at h
  split_ifs at h with h1 h2 h3
  obtain ⟨hs', -⟩ := Prod.mk.inj (Except.ok.inj h)
  subst hs'
  exact ⟨not_ne_iff.mp h2, fun h0 => h1 (h0 ▸ not_ne_iff.mp h2),
    h3, rfl, rfl⟩

theorem renameFirst_nil (addr : Nat) (newName : String) :
    renameFirst addr newName [] = ([], false) := rfl

theorem renameFirst_cons (addr : Nat) (newName : String)
    (c : DeployedContract) (cs : List DeployedContract) :
    renameFirst addr newName (c :: cs) =
      if c.contractAddress = addr then
        ({ c with name := newName } :: cs, true)
      else
        (c :: (renameFirst addr newName cs).1, (renameFirst addr newName cs).2) := rfl

theorem renameFirst_length (addr : Nat) (newName : String)
    (l : List DeployedContract) :
    (renameFirst addr newName l).1.length = l.length := by
  induction l with
  | nil => rfl
  | cons c cs ih =>
    rw [renameFirst_cons]
    split_ifs <;> simp [ih]

theorem renameFirst_get? (addr : Nat) (newName : String)
    (l : List DeployedContract) (i : Nat) (c d : DeployedContract)
    (hc : l.get? i = some c)
    (hd : (renameFirst addr newName l).1.get? i = some d) :
    agreesExceptName c d ∧ (c.contractAddress ≠ addr → d.name = c.name) := by
  induction l generalizing i with
  | nil => simp at hc
  | cons e es ih =>
    rw [renameFirst_cons] at hd
    split_ifs at hd with he
    · cases i with
      | zero =>
        simp only [List.get?_cons_zero, Option.some.injEq] at hc hd
        subst hc; subst hd
        exact ⟨⟨rfl, rfl, rfl, rfl, rfl⟩, fun hne => absurd he hne⟩
      | succ j =>
        simp only [List.get?_cons_succ] at hc hd
        rw [hc] at hd
        cases Option.some.inj hd
        exact ⟨⟨rfl, rfl, rfl, rfl, rfl⟩, fun _ => rfl⟩
    · cases i with
      | zero =>
        simp only [List.get?_cons_zero, Option.some.injEq] at hc hd
        subst hc; subst hd
        exact ⟨⟨rfl, rfl, rfl, rfl, rfl⟩, fun _ => rfl⟩
      | succ j =>
        simp only [List.get?_cons_succ] at hc hd
        exact ih j hc hd

theorem renameFirst_found (addr : Nat) (newName : String)
    (l : List DeployedContract)
    (hm : ∃ c ∈ l, c.contractAddress = addr) :
    ∃ (i : Nat) (c d : DeployedContract),
      l.get? i = some c ∧ (renameFirst addr newName l).1.get? i = some d ∧
      c.contractAddress = addr ∧ d.name = newName := by
  induction l with
  | nil => simp at hm
  | cons c cs ih =>
    by_cases hc : c.contractAddress = addr
    · exact ⟨0, c, { c with name := newName }, rfl,
        by rw [renameFirst_cons, if_pos hc]; rfl, hc, rfl⟩
    · obtain ⟨d, hd, hda⟩ := hm
      rcases List.mem_cons.mp hd with rfl | hdcs
      · exact absurd hda hc
      · obtain ⟨i, e, f, hi1, hi2, hi3, hi4⟩ := ih ⟨d, hdcs, hda⟩
        refine ⟨i + 1, e, f, by simpa using hi1, ?_, hi3, hi4⟩
        rw [renameFirst_cons, if_neg hc]
        simpa using hi2

theorem renameFirst_mem_addr (addr : Nat) (newName : String)
    (l : List DeployedContract) (c : DeployedContract)
    (hc : c ∈ (renameFirst addr newName l).1) :
    ∃ d ∈ l, c.contractAddress = d.contractAddress := by
  induction l with
  | nil => simp [renameFirst_nil] at hc
  | cons d ds ih =>
    rw [renameFirst_cons] at hc
    split_ifs at hc with hd
    · rcases List.mem_cons.mp hc with rfl | hcs
      · exact ⟨d, List.mem_cons_self d ds, rfl⟩
      · exact ⟨c, List.mem_cons_of_mem d hcs, rfl⟩
    · rcases List.mem_cons.mp hc with rfl | hcs
      · exact ⟨c, List.mem_cons_self c ds, rfl⟩
      · obtain ⟨e, he, hce⟩ := ih hcs
        exact ⟨e, List.mem_cons_of_mem d he, hce⟩

theorem findContract_eq_none (addr : Nat) (l : List DeployedContract)
    (h : ∀ c ∈ l, c.contractAddress ≠ addr) : findContract addr l = none := by
  induction l with
  | nil => rfl
  | cons c cs ih =>
    rw [findContract]
    rw [if_neg (h c (List.mem_cons_self c cs))]
    exact ih fun d hd => h d (List.mem_cons_of_mem c hd)

theorem findContract_append (addr : Nat) (l l2 : List DeployedContract)
    (h : findContract addr l = none) :
    findContract addr (l ++ l2) = findContract addr l2 := by
  induction l with
  | nil => rfl
  | cons c cs ih =>
    rw [findContract] at h
    rw [List.cons_append, findContract]
    split_ifs at h ⊢ with hc
    exact ih h

/-- The storage-consistency invariant of the registry: every record in a
user's list has that user as the recorded owner of its address, and lists
are only ever attached to non-zero users. -/
theorem reachable_owner_inv {s : RegistryState} (hr : Reachable s) :
    ∀ u c, c ∈ s.userContracts u →
      s.contractToOwner c.contractAddress = u ∧ u ≠ 0 := by
  induction hr with
  | init => intro u c hc; simp [RegistryState.init] at hc
  | register hr hs hreg ih =>
    obtain ⟨-, -, -, -, howner, hUC, hCO, -⟩ := registerContract_ok hreg
    intro u c hc
    simp only [hUC] at hc
    simp only [hCO]
    split_ifs at hc with hu
    · rcases List.mem_append.mp hc with hcold | hcnew
      · obtain ⟨h1, h2⟩ := ih u c hcold
        have hca : c.contractAddress ≠ _ := fun he => h2 (by rw [← h1, he, howner])
        rw [if_neg hca]
        exact ⟨h1, h2⟩
      · rw [List.mem_singleton] at hcnew
        subst hcnew
        subst hu
        exact ⟨by simp, hs⟩
    · obtain ⟨h1, h2⟩ := ih u c hc
      have hca : c.contractAddress ≠ _ := fun he => h2 (by rw [← h1, he, howner])
      rw [if_neg hca]
      exact ⟨h1, h2⟩
  | update hr hs hupd ih =>
    obtain ⟨-, -, -, hUC, hCO⟩ := updateContractName_ok hupd
    intro u c hc
    simp only [hUC] at hc
    simp only [hCO]
    split_ifs at hc with hu
    · obtain ⟨d, hd, hcd⟩ := renameFirst_mem_addr _ _ _ c hc
      obtain ⟨hd1, hd2⟩ := ih u d (hu ▸ hd)
      exact ⟨hcd ▸ hd1, hd2⟩
    · exact ih u c hc

/-- C9: in every registry state (so in particular every reachable one) the
per-user count accessor `getUserContractCount` returns exactly the length
of the list returned by `getUserContracts` for the same user. -/
theorem C9_count_matches_list (s : RegistryState) (user : Nat) :
    getUserContractCount s user = (getUserContracts s user).length := rfl

/-- C2: `registerContract` fails exactly when the name is empty, the
address is zero, the network is empty, the txHash is zero, or the address
already has an owner; on success it appends exactly one record (with
`deployer` the caller) to the caller's list, sets the address's owner to
the caller, and emits `ContractRegistered` with all fields plus the caller
and the server-assigned timestamp. -/
theorem C2_register_spec (s : RegistryState) (sender : Nat) (name : String)
    (addr : Nat) (network : String) (txHash blockTimestamp : Nat) :
    (exceptIsError (registerContract s sender name addr network txHash blockTimestamp) = true ↔
      (name = "" ∨ addr = 0 ∨ network = "" ∨ txHash = 0 ∨
        s.contractToOwner addr ≠ 0)) ∧
    (∀ s' ev,
      registerContract s sender name addr network txHash blockTimestamp =
        Except.ok (s', ev) →
      s'.userContracts sender = s.userContracts sender ++
        [⟨name, addr, network, blockTimestamp, txHash, sender⟩] ∧
      (∀ u, u ≠ sender → s'.userContracts u = s.userContracts u) ∧
      s'.contractToOwner addr = sender ∧
      (∀ a, a ≠ addr → s'.contractToOwner a = s.contractToOwner a) ∧
      ev = ⟨sender, addr, name, network, txHash, blockTimestamp⟩) := by
  constructor
  · rw [registerContract]
    split_ifs with h1 h2 h3 h4 h5 <;> simp [exceptIsError, *]
  · intro s' ev hok
    obtain ⟨-, -, -, -, -, hUC, hCO, hev⟩ := registerContract_ok hok
    refine ⟨?_, ?_, ?_, ?_, hev⟩
    · rw [hUC]; simp
    · intro u hu; rw [hUC]; simp [hu]
    · rw [hCO]; simp
    · intro a ha; rw [hCO]; simp [ha]

/-- C2 witness: registering into the fresh registry succeeds and produces
exactly the expected one-record list and owner entry. -/
theorem C2_register_spec_w :
    demoState.userContracts 1 = [⟨"A", 5, "testnet", 100, 7, 1⟩] ∧
    demoState.contractToOwner 5 = 1 := by
  have h := (C2_register_spec RegistryState.init 1 "A" 5 "testnet" 7 100).2
    demoState ⟨1, 5, "A", "testnet", 7, 100⟩ rfl
  exact ⟨by rw [h.1]; rfl, h.2.2.1⟩

/-- C1: from any reachable state, once a `registerContract` call for an
address succeeds, every later `registerContract` call for the same address
fails, and (transaction view) the failed call leaves the state — in
particular the record created by the first call — unmodified. -/
theorem C1_register_at_most_once (s : RegistryState) (sender : Nat)
    (name : String) (addr : Nat) (network : String)
    (txHash blockTimestamp : Nat) (s' : RegistryState)
    (ev : ContractRegisteredEvent) (hr : Reachable s) (hs : sender ≠ 0)
    (hreg : registerContract s sender name addr network txHash blockTimestamp =
      Except.ok (s', ev))
    (sender2 : Nat) (name2 network2 : String) (txHash2 t2 : Nat) :
    exceptIsError (registerContract s' sender2 name2 addr network2 txHash2 t2) = true ∧
    registerContractTx s' sender2 name2 addr network2 txHash2 t2 = s' := by
  obtain ⟨-, -, -, -, -, -, hCO, -⟩ := registerContract_ok hreg
  have howner : s'.contractToOwner addr ≠ 0 := by
    rw [hCO]; simpa using hs
  have herr : exceptIsError (registerContract s' sender2 name2 addr network2 txHash2 t2) = true := by
    rw [registerContract]
    split_ifs <;> rfl
  refine ⟨herr, ?_⟩
  obtain ⟨msg, hmsg⟩ :
      ∃ msg, registerContract s' sender2 name2 addr network2 txHash2 t2 =
        Except.error msg := by
    cases hres : registerContract s' sender2 name2 addr network2 txHash2 t2 with
    | error m => exact ⟨m, rfl⟩
    | ok v => rw [hres] at herr; simp [exceptIsError] at herr
  simp [registerContractTx, hmsg]

/-- C1 witness: after registering address 5 into the fresh registry, a
second registration of address 5 by another user fails and leaves the
state unchanged. -/
theorem C1_register_at_most_once_w :
    exceptIsError (registerContract demoState 2 "B" 5 "m" 8 1) = true ∧
    registerContractTx demoState 2 "B" 5 "m" 8 1 = demoState :=
  C1_register_at_most_once RegistryState.init 1 "A" 5 "testnet" 7 100
    demoState ⟨1, 5, "A", "testnet", 7, 100⟩ Reachable.init (by decide) rfl
    2 "B" "m" 8 1

/-- C4: from any reachable state, after a successful `registerContract`
for an address, `getContract` on that address returns a record whose
`name`, `contractAddress`, `network`, `txHash` and `deployer` equal what
was registered, and whose `timestamp` is the server-assigned block
timestamp. -/
theorem C4_register_roundtrip (s : RegistryState) (sender : Nat)
    (name : String) (addr : Nat) (network : String)
    (txHash blockTimestamp : Nat) (s' : RegistryState)
    (ev : ContractRegisteredEvent) (hr : Reachable s) (hs : sender ≠ 0)
    (hreg : registerContract s sender name addr network txHash blockTimestamp =
      Except.ok (s', ev)) :
    getContract s' addr =
      Except.ok ⟨name, addr, network, blockTimestamp, txHash, sender⟩ := by
  obtain ⟨-, -, -, -, howner, hUC, hCO, -⟩ := registerContract_ok hreg
  have hnone : findContract addr (s.userContracts sender) = none :=
    findContract_eq_none _ _ (fun c hc hca => by
      obtain ⟨h1, h2⟩ := reachable_owner_inv hr sender c hc
      rw [hca, howner] at h1
      exact hs h1.symm)
  have hco : s'.contractToOwner addr = sender := by rw [hCO]; simp
  have huc : s'.userContracts sender = s.userContracts sender ++
      [⟨name, addr, network, blockTimestamp, txHash, sender⟩] := by
    rw [hUC]; simp
  rw [getContract, hco, if_neg hs, huc, findContract_append _ _ _ hnone]
  simp [findContract]

/-- C4 witness: register into the fresh registry, then read the record
back by address. -/
theorem C4_register_roundtrip_w :
    getContract demoState 5 = Except.ok ⟨"A", 5, "testnet", 100, 7, 1⟩ :=
  C4_register_roundtrip RegistryState.init 1 "A" 5 "testnet" 7 100
    demoState ⟨1, 5, "A", "testnet", 7, 100⟩ Reachable.init (by decide) rfl

/-- C3: `updateContractName` fails with `Contract not registered` when the
address has no owner, with `Not the contract owner` when the caller is not
the owner, and with `Name cannot be empty` when the new name is empty;
when the true owner renames with a non-empty name the call succeeds and
only a record's `name` can change: the list keeps its length and order,
every record keeps its `contractAddress`, `network`, `timestamp`, `txHash`
and `deployer`, records at non-matching addresses keep their names, other
users' lists and the owner index are untouched, and the first record
matching the address gets the new name. -/
theorem C3_rename_spec (s : RegistryState) (sender addr : Nat)
    (newName : String) :
    (s.contractToOwner addr = 0 →
      updateContractName s sender addr newName =
        Except.error "Contract not registered") ∧
    (s.contractToOwner addr ≠ 0 → s.contractToOwner addr ≠ sender →
      updateContractName s sender addr newName =
        Except.error "Not the contract owner") ∧
    (s.contractToOwner addr = sender → sender ≠ 0 → newName = "" →
      updateContractName s sender addr newName =
        Except.error "Name cannot be empty") ∧
    (s.contractToOwner addr = sender → sender ≠ 0 → newName ≠ "" →
      exceptIsError (updateContractName s sender addr newName) = false) ∧
    (∀ s' evs,
      updateContractName s sender addr newName = Except.ok (s', evs) →
      (s'.userContracts sender).length = (s.userContracts sender).length ∧
      (∀ i c d, (s.userContracts sender).get? i = some c →
        (s'.userContracts sender).get? i = some d →
        agreesExceptName c d ∧
        (c.contractAddress ≠ addr → d.name = c.name)) ∧
      (∀ u, u ≠ sender → s'.userContracts u = s.userContracts u) ∧
      s'.contractToOwner = s.contractToOwner ∧
      ((∃ c ∈ s.userContracts sender, c.contractAddress = addr) →
        ∃ i c d, (s.userContracts sender).get? i = some c ∧
          (s'.userContracts sender).get? i = some d ∧
          c.contractAddress = addr ∧ d.name = newName)) := by
  refine ⟨?_, ?_, ?_, ?_, ?_⟩
  · intro h
    rw [updateContractName, if_pos h]
  · intro h1 h2
    rw [updateContractName, if_neg h1, if_pos h2]
  · intro h1 h0 h3
    have hno : ¬ s.contractToOwner addr = 0 := by rw [h1]; exact h0
    have hns : ¬ s.contractToOwner addr ≠ sender := not_ne_iff.mpr h1
    rw [updateContractName, if_neg hno, if_neg hns, if_pos h3]
  · intro h1 h0 h3
    have hno : ¬ s.contractToOwner addr = 0 := by rw [h1]; exact h0
    have hns : ¬ s.contractToOwner addr ≠ sender := not_ne_iff.mpr h1
    rw [updateContractName, if_neg hno, if_neg hns, if_neg h3]
    rfl
  · intro s' evs h
    obtain ⟨-, -, -, hUC, hCO⟩ := updateContractName_ok h
    refine ⟨?_, ?_, ?_, hCO, ?_⟩
    · rw [hUC]; simp [renameFirst_length]
    · intro i c d hc hd
      have hd' : (renameFirst addr newName (s.userContracts sender)).1.get? i =
          some d := by simpa [hUC] using hd
      exact renameFirst_get? addr newName _ i c d hc hd'
    · intro u hu; rw [hUC]; simp [hu]
    · intro hm
      obtain ⟨i, c, d, hi1, hi2, hi3, hi4⟩ := renameFirst_found addr newName _ hm
      exact ⟨i, c, d, hi1, by simpa [hUC] using hi2, hi3, hi4⟩

/-- C3 witness: renaming an unregistered address fails with the
`Contract not registered` revert, and the true owner's rename of the
registered address 5 succeeds. -/
theorem C3_rename_spec_w :
    updateContractName RegistryState.init 1 5 "B" =
      Except.error "Contract not registered" ∧
    exceptIsError (updateContractName demoState 1 5 "B") = false :=
  ⟨(C3_rename_spec RegistryState.init 1 5 "B").1 rfl,
   (C3_rename_spec demoState 1 5 "B").2.2.2.1 rfl (by decide) (by decide)⟩

/-!
The Telegram bot (`index.js`).  JavaScript values that flow through the
handlers are modelled by a small JSON value type; `JSON.parse` is an
external builtin and is passed to the handlers as an oracle
`jsonParse : String → Option Json` (`none` models a parse exception).
JavaScript truthiness of JSON values is modelled by `truthy`.
-/

/-- JSON values (JavaScript numbers restricted to integers; none of the
modelled checks depends on fractional values). -/
inductive Json
  | null
  | bool (b : Bool)
  | num (n : Int)
  | str (s : String)
  | arr (elems : List Json)
  | obj (fields : List (String × Json))

/-- JavaScript truthiness of a JSON value: `null`, `false`, `0` and `""`
are falsy, every object and array is truthy. -/
def truthy : Json → Bool
  | Json.null => false
  | Json.bool b => b
  | Json.num n => n ≠ 0
  | Json.str s => s ≠ ""
  | Json.arr _ => true
  | Json.obj _ => true

/-- Property access `v[key]` on a JSON value: defined fields of objects
(last duplicate wins, as in `JSON.parse`); `none` models `undefined` (and
the `TypeError` paths on `null`, which the handlers catch the same way). -/
def getField (v : Json) (key : String) : Option Json :=
  match v with
  | Json.obj fields =>
    fields.foldl (fun acc p => if p.1 = key then some p.2 else acc) none
  | _ => none

/-- Truthiness of a possibly-undefined value (`undefined` is falsy). -/
def truthyOpt : Option Json → Bool
  | none => false
  | some v => truthy v

/-- JavaScript `String.prototype.startsWith`, written as an explicit
prefix test on the character list so that it evaluates by reduction. -/
def strStartsWith (s p : String) : Bool :=
  p.toList.isPrefixOf s.toList

/-- Whether a JSON value is an array (the shape the spec demands of the
`abi` field). -/
def isJsonArray : Json → Bool
  | Json.arr _ => true
  | _ => false

/-- The `step` values of a bot session, exactly the strings assigned to
`session.step` in `index.js`. -/
inductive Step
  | contract_input
  | awaiting_contract_data
  | awaiting_constructor_params
  | awaiting_contract_name
  | awaiting_network_selection
  | deployment_confirmation
  | awaiting_private_key_choice
  | awaiting_private_key
  | deploying
  | awaiting_address
deriving DecidableEq

/-- The two contract-input kinds of `handleContractInputType`. -/
inductive ContractInputKind
  | bytecode_abi
  | solidity
deriving DecidableEq

/-- `session.contractData`: either the parsed JSON object of the
bytecode+ABI path, or the raw Solidity source text. -/
inductive ContractData
  | parsedJson (j : Json)
  | sourceCode (text : String)

/-- A bot session as stored in the `userSessions` map. -/
structure Session where
  step : Step
  action : Option String := none
  contractInputType : Option ContractInputKind := none
  contractData : Option ContractData := none
  constructorParams : Option (List Json) := none
  contractName : Option String := none
  network : Option String := none
  privateKey : Option String := none

/-- `handleContractData` from `index.js`: on the bytecode+ABI path, parse
the text as JSON, require truthy `bytecode` and `abi` fields, require
`bytecode.startsWith('0x')` (a `TypeError` on a non-string `bytecode` is
caught like any other failure); any failure re-prompts and leaves the
session unchanged; success stores the parsed object and advances the step.
On the Solidity path the raw text is stored unchanged and the step
advances. -/
def handleContractData (jsonParse : String → Option Json)
    (session : Session) (text : String) : Session :=
  if session.contractInputType = some ContractInputKind.bytecode_abi then
    match jsonParse text with
    | none => session
    | some j =>
      if !(truthyOpt (getField j "bytecode")) || !(truthyOpt (getField j "abi")) then
        session
      else
        match getField j "bytecode" with
        | some (Json.str s) =>
          if strStartsWith s "0x" then
            { session with contractData := some (ContractData.parsedJson j),
                           step := Step.awaiting_constructor_params }
          else session
        | _ => session
  else
    { session with contractData := some (ContractData.sourceCode text),
                   step := Step.awaiting_constructor_params }

/-- `handleConstructorParams` from `index.js`: parse the text as JSON and
require an array; otherwise re-prompt with the session unchanged. -/
def handleConstructorParams (jsonParse : String → Option Json)
    (session : Session) (text : String) : Session :=
  match jsonParse text with
  | some (Json.arr xs) =>
    { session with constructorParams := some xs,
                   step := Step.awaiting_contract_name }
  | _ => session

/-- `handleContractName` from `index.js`: trim, reject empty or longer
than 100 characters, otherwise store the name and advance. -/
def handleContractName (session : Session) (text : String) : Session :=
  if text.trim.length = 0 then session
  else if text.trim.length > 100 then session
  else
    { session with contractName := some text.trim,
                   step := Step.awaiting_network_selection }

/-- `handlePrivateKey` from `index.js`: the only validation performed is
`privateKey.startsWith('0x') && privateKey.length === 66`; on success the
key is stored and the step becomes `deploying` (the asynchronous
`deployContract` then runs). -/
def handlePrivateKey (session : Session) (text : String) : Session :=
  if !(strStartsWith text "0x") || text.length ≠ 66 then session
  else
    { session with privateKey := some text, step := Step.deploying }

/-- `handleAddressForContracts` from `index.js`: only acts on
`view_contracts` sessions; requires a 42-character string starting with
`0x`; on success the session is deleted (`none`) and the lookup runs. -/
def handleAddressForContracts (session : Session) (text : String) :
    Option Session :=
  if session.action ≠ some "view_contracts" then some session
  else if !(strStartsWith text "0x") || text.length ≠ 42 then some session
  else none

/-- The free-text dispatcher `bot.on('message')` from `index.js`, for a
chat that has a session: commands (text starting with `/`) return early;
otherwise the handler for the session's step runs; steps without a switch
case (and the explicitly empty `awaiting_private_key_choice` case) leave
the session untouched.  `none` models deletion of the session from the
map. -/
def onMessage (jsonParse : String → Option Json) (session : Session)
    (text : String) : Option Session :=
  if strStartsWith text "/" then some session
  else
    match session.step with
    | Step.awaiting_contract_data =>
      some (handleContractData jsonParse session text)
    | Step.awaiting_constructor_params =>
      some (handleConstructorParams jsonParse session text)
    | Step.awaiting_contract_name =>
      some (handleContractName session text)
    | Step.awaiting_private_key_choice => some session
    | Step.awaiting_private_key =>
      some (handlePrivateKey session text)
    | Step.awaiting_address => handleAddressForContracts session text
    | _ => some session

/-- The key format stated by the spec for `AwaitingKey`: `0x` followed by
64 hexadecimal digits.  (The code itself never checks the hex digits.) -/
def specKeyFormat (s : String) : Bool :=
  strStartsWith s "0x" && s.length = 66 &&
    (s.toList.drop 2).all (fun c =>
      c.isDigit || ('a' ≤ c && c ≤ 'f') || ('A' ≤ c && c ≤ 'F'))

/-- The acceptance condition `handleContractData` actually enforces on a
parsed payload: a `bytecode` field that is a string starting with `0x`,
and a truthy `abi` field (its array shape is never checked). -/
def acceptsBytecodeAbi (j : Json) : Bool :=
  (match getField j "bytecode" with
   | some (Json.str s) => strStartsWith s "0x"
   | _ => false) && truthyOpt (getField j "abi")

/-!
The Solidity compilation pipeline of `compileSolidity` in `index.js`.  The
external `solc.compile` call is opaque; its parsed JSON output is the
input of the embedded function: the optional `errors` list, and the
`output.contracts['contract.sol']` object as an association list in
`Object.keys` order (so its head is "the first contract").
-/

/-- One entry of `output.errors`. -/
structure SolcDiagnostic where
  severity : String
  message : String

/-- `contract.evm.bytecode`: the optional `object` payload (absent
modelled as `none`; the empty string is falsy in the source's check). -/
structure SolcBytecodeObj where
  object : Option String

/-- `contract.evm`: the optional `bytecode` member. -/
structure SolcEvmOutput where
  bytecode : Option SolcBytecodeObj

/-- One compiled unit: its optional `evm` member and its `abi`. -/
structure SolcUnit where
  evm : Option SolcEvmOutput
  abi : Json

/-- The compiler output consumed by `compileSolidity`. -/
structure SolcOutput where
  errors : Option (List SolcDiagnostic)
  contracts : Option (List (String × SolcUnit))

/-- The value returned by `compileSolidity` on success. -/
structure CompiledArtifact where
  bytecode : String
  abi : Json

/-- The severity-`error` diagnostics that `compileSolidity` filters out of
`output.errors` (no `errors` member means no diagnostics). -/
def solcErrors (output : SolcOutput) : List SolcDiagnostic :=
  match output.errors with
  | some es => es.filter (fun e => e.severity = "error")
  | none => []

/-- `compileSolidity` from `index.js`, from the compiler output onward:
fail on any severity-`error` diagnostic; fail when no compiled unit is
present; select the first unit; fail when it has no (or an empty)
bytecode payload; otherwise return `'0x' + object` (the prefix is added
unconditionally) together with the unit's `abi`. -/
def compileSolidity (output : SolcOutput) : Except String CompiledArtifact :=
  if (solcErrors output).length > 0 then
    Except.error ("Compilation errors:\n" ++
      String.intercalate "\n" ((solcErrors output).map (fun e => e.message)))
  else
    match output.contracts with
    | none => Except.error "No contracts found in the source code"
    | some [] => Except.error "No contracts found in the source code"
    | some (u :: _) =>
      match u.2.evm with
      | none => Except.error "No bytecode generated. Check your contract code."
      | some ev =>
        match ev.bytecode with
        | none => Except.error "No bytecode generated. Check your contract code."
        | some bc =>
          match bc.object with
          | none => Except.error "No bytecode generated. Check your contract code."
          | some obj =>
            if obj = "" then
              Except.error "No bytecode generated. Check your contract code."
            else Except.ok ⟨"0x" ++ obj, u.2.abi⟩

/-- A unit whose bytecode payload is missing in any of the ways the
source's `!contract.evm || !contract.evm.bytecode ||
!contract.evm.bytecode.object` check detects. -/
def missingBytecode (u : String × SolcUnit) : Prop :=
  u.2.evm = none ∨
  (∃ ev, u.2.evm = some ev ∧ ev.bytecode = none) ∨
  (∃ ev bc, u.2.evm = some ev ∧ ev.bytecode = some bc ∧
    (bc.object = none ∨ bc.object = some ""))

/-- `registerContractWithRegistry` from `index.js`, with the external
ethers calls (contract construction, `registerContract`, `tx.wait`)
abstracted as one `Except`-valued outcome: the whole body sits in a
`try`/`catch` whose `catch` returns `null`, and a zero registry address
short-circuits to `null`.  The outer `Except` layer of the return type
models an exception escaping the function: `Except.ok` means no throw. -/
def registerContractWithRegistry (registryAddress : String)
    (callOutcome : Except String String) : Except String (Option String) :=
  if registryAddress = "0x0000000000000000000000000000000000000000" then
    Except.ok none
  else
    match callOutcome with
    | Except.ok receiptHash => Except.ok (some receiptHash)
    | Except.error _ => Except.ok none

/-- A session sitting in the artifact-collection step of the
bytecode+ABI path. -/
def artifactSession : Session :=
  { step := Step.awaiting_contract_data,
    contractInputType := some ContractInputKind.bytecode_abi }

/-- A payload whose `abi` field is a JSON number, not an array. -/
def nonArrayPayload : Json :=
  Json.obj [("bytecode", Json.str "0x6001"), ("abi", Json.num 1)]

/-- A payload whose `abi` field is a JSON array. -/
def arrayPayload : Json :=
  Json.obj [("bytecode", Json.str "0x6001"), ("abi", Json.arr [])]

/-- C5 (amended): in the artifact step of the bytecode+ABI path, the
handler rejects — leaving the session entirely unchanged — on JSON parse
failure and whenever the parsed payload lacks a truthy `bytecode` field
that is a string starting with `0x` or lacks a truthy `abi` field; when
both requirements hold (the array shape of `abi` is never checked) it
stores the parsed object and advances to the constructor-arguments
step. -/
theorem C5_artifact_spec (jsonParse : String → Option Json)
    (session : Session) (text : String)
    (hstep : session.step = Step.awaiting_contract_data)
    (hkind : session.contractInputType = some ContractInputKind.bytecode_abi) :
    (jsonParse text = none →
      handleContractData jsonParse session text = session) ∧
    (∀ j, jsonParse text = some j → acceptsBytecodeAbi j = false →
      handleContractData jsonParse session text = session) ∧
    (∀ j, jsonParse text = some j → acceptsBytecodeAbi j = true →
      handleContractData jsonParse session text =
        { session with contractData := some (ContractData.parsedJson j),
                       step := Step.awaiting_constructor_params }) := by
  refine ⟨?_, ?_, ?_⟩
  · intro hp
    rw [handleContractData, if_pos hkind, hp]
  · intro j hj hacc
    rw [handleContractData, if_pos hkind, hj]
    dsimp only
    split_ifs with hcond
    · rfl
    · simp only [Bool.or_eq_true, Bool.not_eq_true', not_or,
        Bool.not_eq_false] at hcond
      obtain ⟨hbt, hat⟩ := hcond
      rw [acceptsBytecodeAbi, hat, Bool.and_true] at hacc
      cases hb : getField j "bytecode" with
      | none => rfl
      | some jb =>
        cases jb with
        | str s =>
          rw [hb] at hacc
          have hsw : strStartsWith s "0x" = false := hacc
          simp [hsw]
        | null => rfl
        | bool b => rfl
        | num n => rfl
        | arr xs => rfl
        | obj fs => rfl
  · intro j hj hacc
    rw [handleContractData, if_pos hkind, hj]
    dsimp only
    rw [acceptsBytecodeAbi] at hacc
    simp only [Bool.and_eq_true] at hacc
    obtain ⟨hb', habi⟩ := hacc
    cases hb : getField j "bytecode" with
    | none => rw [hb] at hb'; exact Bool.noConfusion hb'
    | some jb =>
      cases jb with
      | str s =>
        rw [hb] at hb'
        have hsw : strStartsWith s "0x" = true := hb'
        have hs : s ≠ "" := by
          intro he
          rw [he] at hsw
          exact absurd hsw (by decide)
        have h1 : truthyOpt (some (Json.str s)) = true := by
          simp [truthyOpt, truthy, hs]
        have hcnd : ¬((!truthyOpt (some (Json.str s)) ||
            !truthyOpt (getField j "abi")) = true) := by
          simp [h1, habi]
        rw [if_neg hcnd]
        simp [hsw]
      | null => rw [hb] at hb'; exact Bool.noConfusion hb'
      | bool b => rw [hb] at hb'; exact Bool.noConfusion hb'
      | num n => rw [hb] at hb'; exact Bool.noConfusion hb'
      | arr xs => rw [hb] at hb'; exact Bool.noConfusion hb'
      | obj fs => rw [hb] at hb'; exact Bool.noConfusion hb'

/-- C5 witness: a payload with an array `abi` and a `0x` bytecode string
is accepted and the session advances. -/
theorem C5_artifact_spec_w :
    handleContractData (fun _ => some arrayPayload) artifactSession "payload" =
      { artifactSession with
          contractData := some (ContractData.parsedJson arrayPayload),
          step := Step.awaiting_constructor_params } :=
  (C5_artifact_spec (fun _ => some arrayPayload) artifactSession "payload"
    rfl rfl).2.2 arrayPayload rfl (by decide)

/-- C5 counterexample: the claim requires the handler to reject a payload
whose `interface` (`abi`) field is not an array, but the code accepts one
whose `abi` is the number `1` — the session advances to the
constructor-arguments step instead of remaining in the artifact step. -/
theorem C5_counterexample :
    isJsonArray ((getField nonArrayPayload "abi").getD Json.null) = false ∧
    (handleContractData (fun _ => some nonArrayPayload) artifactSession
        "payload").step = Step.awaiting_constructor_params := by
  exact ⟨rfl, by decide⟩

/-- A session sitting in the private-key entry step. -/
def keySession : Session := { step := Step.awaiting_private_key }

/-- C6 (amended): in the key-entry step the handler accepts exactly the
texts that start with `0x` and have length 66 — the 64 characters after
the prefix are never checked to be hexadecimal — storing the key and
moving to `deploying`; any other text is rejected and the session is
unchanged. -/
theorem C6_key_spec (session : Session) (text : String)
    (hstep : session.step = Step.awaiting_private_key) :
    (strStartsWith text "0x" = true → text.length = 66 →
      handlePrivateKey session text =
        { session with privateKey := some text, step := Step.deploying }) ∧
    (strStartsWith text "0x" = false ∨ text.length ≠ 66 →
      handlePrivateKey session text = session) := by
  constructor
  · intro h1 h2
    rw [handlePrivateKey]
    simp [h1, h2]
  · intro h
    rw [handlePrivateKey]
    rcases h with h | h <;> simp [h]

/-- C6 witness: a well-formed 66-character hex key is accepted. -/
theorem C6_key_spec_w :
    handlePrivateKey keySession
        "0x1111111111111111111111111111111111111111111111111111111111111111" =
      { keySession with
          privateKey := some
            "0x1111111111111111111111111111111111111111111111111111111111111111",
          step := Step.deploying } :=
  (C6_key_spec keySession
    "0x1111111111111111111111111111111111111111111111111111111111111111"
    rfl).1 (by decide) (by decide)

/-- C6 counterexample: a 66-character text of `0x` followed by 64 `z`s is
not of the spec's key format, yet the code accepts it and transitions to
`deploying` — the claim says any text with non-hex characters is
rejected. -/
theorem C6_counterexample :
    specKeyFormat
        "0xzzzzzzzzzzzzzzzzzzzzzzzzzzzzzzzzzzzzzzzzzzzzzzzzzzzzzzzzzzzzzzzz" =
      false ∧
    (handlePrivateKey keySession
        "0xzzzzzzzzzzzzzzzzzzzzzzzzzzzzzzzzzzzzzzzzzzzzzzzzzzzzzzzzzzzzzzzz").step =
      Step.deploying := by
  exact ⟨by decide, rfl⟩

/-- C7 (amended): `compileSolidity` applies its checks in the stated
order — severity-`error` diagnostics first, then absence of compiled
units, then selection of the first unit, then a missing/empty bytecode
payload — and on success returns the first unit's `abi` together with its
bytecode prefixed by `0x` unconditionally (even when the payload already
starts with `0x`). -/
theorem C7_compile_pipeline (output : SolcOutput) :
    (solcErrors output ≠ [] →
      compileSolidity output = Except.error ("Compilation errors:\n" ++
        String.intercalate "\n"
          ((solcErrors output).map (fun e => e.message)))) ∧
    (solcErrors output = [] →
      (output.contracts = none ∨ output.contracts = some []) →
      compileSolidity output =
        Except.error "No contracts found in the source code") ∧
    (∀ u rest, solcErrors output = [] →
      output.contracts = some (u :: rest) → missingBytecode u →
      compileSolidity output =
        Except.error "No bytecode generated. Check your contract code.") ∧
    (∀ u rest ev bc obj, solcErrors output = [] →
      output.contracts = some (u :: rest) → u.2.evm = some ev →
      ev.bytecode = some bc → bc.object = some obj → obj ≠ "" →
      compileSolidity output = Except.ok ⟨"0x" ++ obj, u.2.abi⟩) := by
  refine ⟨?_, ?_, ?_, ?_⟩
  · intro hne
    rw [compileSolidity, if_pos (List.length_pos.mpr hne)]
  · intro he hc
    rw [compileSolidity, if_neg (by simp [he])]
    rcases hc with hc | hc <;> rw [hc]
  · intro u rest he hc hmb
    rw [compileSolidity, if_neg (by simp [he]), hc]
    dsimp only
    rcases hmb with hmb | ⟨ev, hev, hmb⟩ | ⟨ev, bc, hev, hbc, hmb⟩
    · rw [hmb]
    · rw [hev]
      dsimp only
      rw [hmb]
    · rw [hev]
      dsimp only
      rw [hbc]
      dsimp only
      rcases hmb with hmb | hmb
      · rw [hmb]
      · rw [hmb]
        simp
  · intro u rest ev bc obj he hc hev hbc hobj hne
    rw [compileSolidity, if_neg (by simp [he]), hc]
    dsimp only
    rw [hev]
    dsimp only
    rw [hbc]
    dsimp only
    rw [hobj]
    dsimp only
    rw [if_neg hne]

/-- A clean compiler output: no diagnostics, one unit with bytecode
payload `abcd`. -/
def cleanSolcOutput : SolcOutput :=
  { errors := none,
    contracts := some [("Demo",
      { evm := some { bytecode := some { object := some "abcd" } },
        abi := Json.arr [] })] }

/-- A compiler output whose (unusual) bytecode payload already carries a
`0x` prefix. -/
def prefixedSolcOutput : SolcOutput :=
  { errors := none,
    contracts := some [("Demo",
      { evm := some { bytecode := some { object := some "0xab" } },
        abi := Json.arr [] })] }

/-- C7 witness: the clean output compiles to `0xabcd` with its `abi`. -/
theorem C7_compile_pipeline_w :
    compileSolidity cleanSolcOutput = Except.ok ⟨"0xabcd", Json.arr []⟩ :=
  (C7_compile_pipeline cleanSolcOutput).2.2.2
    ("Demo", { evm := some { bytecode := some { object := some "abcd" } },
               abi := Json.arr [] })
    [] { bytecode := some { object := some "abcd" } }
    { object := some "abcd" } "abcd" rfl rfl rfl rfl rfl (by decide)

/-- C7 counterexample: on a payload already starting with `0x` the code
still prepends `0x`, returning `0x0xab` — the claim says the prefix is
added only if not already present, which would give `0xab`. -/
theorem C7_counterexample :
    compileSolidity prefixedSolcOutput = Except.ok ⟨"0x0xab", Json.arr []⟩ ∧
    "0x0xab" ≠ "0xab" := by
  exact ⟨rfl, by decide⟩

/-- C8: the registry client adapter never lets a failure escape — the
result is always a normal return (never a thrown exception), and every
failing call outcome (including the `Contract already registered` revert)
is reported upward as `null`, so a registration failure cannot convert a
successful deployment into a failure. -/
theorem C8_registry_best_effort (registryAddress : String)
    (callOutcome : Except String String) :
    exceptIsError (registerContractWithRegistry registryAddress callOutcome) =
      false ∧
    (∀ e, callOutcome = Except.error e →
      registerContractWithRegistry registryAddress callOutcome =
        Except.ok none) := by
  constructor
  · rw [registerContractWithRegistry.eq_def]
    split_ifs
    · rfl
    · cases callOutcome <;> rfl
  · intro e he
    subst he
    rw [registerContractWithRegistry.eq_def]
    split_ifs <;> rfl

/-- C8 witness: an already-registered revert from the registry call is
swallowed and reported as `null`. -/
theorem C8_registry_best_effort_w :
    registerContractWithRegistry "0x1111111111111111111111111111111111111111"
        (Except.error "Contract already registered") = Except.ok none :=
  (C8_registry_best_effort "0x1111111111111111111111111111111111111111"
    (Except.error "Contract already registered")).2
    "Contract already registered" rfl

/-- C10: any non-command free-text message arriving while the session sits
in one of the selection-only steps — `contract_input`,
`awaiting_network_selection`, `deployment_confirmation` or
`awaiting_private_key_choice` — leaves the session entirely unchanged. -/
theorem C10_selection_steps_inert (jsonParse : String → Option Json)
    (session : Session) (text : String)
    (hcmd : strStartsWith text "/" = false)
    (hstep : session.step = Step.contract_input ∨
      session.step = Step.awaiting_network_selection ∨
      session.step = Step.deployment_confirmation ∨
      session.step = Step.awaiting_private_key_choice) :
    onMessage jsonParse session text = some session := by
  rw [onMessage, if_neg (by simp [hcmd])]
  rcases hstep with h | h | h | h <;> rw [h]

/-- A session in the initial input-kind selection step. -/
def menuSession : Session := { step := Step.contract_input }

/-- C10 witness: free text in the `contract_input` step is ignored. -/
theorem C10_selection_steps_inert_w :
    onMessage (fun _ => none) menuSession "hello" = some menuSession :=
  C10_selection_steps_inert (fun _ => none) menuSession "hello" (by decide)
    (Or.inl rfl)
